import Mathlib

/-!
Verification of the MacReplay stream-session / MAC-failover engine
(`app-docker.py`) against its natural-language specification.

The Python source is shallowly embedded: Python `dict`s (insertion-ordered,
unique keys) become association lists, Python `list`s become Lean lists,
`subprocess` results become explicit values, and the network client (`stb`)
becomes an oracle record of functions.  All definitions are executable.
-/

namespace MacReplay

/-! ## Python dict model

A Python dict is an insertion-ordered association list with unique keys.
`dictGet`, `dictDel`, `dictSet` follow CPython semantics:
`d[k] = v` on an absent key appends at the end; `del d[k]` removes the
single entry for `k`.  -/

abbrev Dict (α : Type) := List (String × α)

def dictGet {α : Type} (d : Dict α) (k : String) : Option α :=
  (d.find? (fun p => p.1 == k)).map Prod.snd

def dictDel {α : Type} (d : Dict α) (k : String) : Dict α :=
  d.eraseP (fun p => p.1 == k)

def dictSet {α : Type} : Dict α → String → α → Dict α
  | [], k, v => [(k, v)]
  | (k2, v2) :: rest, k, v =>
    if k2 == k then (k, v) :: rest else (k2, v2) :: dictSet rest k v

def dictKeys {α : Type} (d : Dict α) : List String := d.map Prod.fst

def dictHasKey {α : Type} (d : Dict α) (k : String) : Bool :=
  (d.find? (fun p => p.1 == k)).isSome

/-! ## moveMac (`app-docker.py` line 1077)

```python
def moveMac(portalId, mac):
    portals = getPortals()
    macs = portals[portalId]["macs"]
    x = macs[mac]
    del macs[mac]
    macs[mac] = x
    portals[portalId]["macs"] = macs
    savePortals(portals)
```

A portal's `macs` is a dict mapping MAC address to expiry string.
`moveMacL` is the mutation on that dict; it returns `none` when the MAC is
absent (Python would raise `KeyError` at `macs[mac]`).  -/

def moveMacL (macs : Dict String) (mac : String) : Option (Dict String) :=
  match dictGet macs mac with
  | none => none
  | some x => some (dictSet (dictDel macs mac) mac x)

/-- A portal record, restricted to the fields the session engine reads. -/
structure Portal where
  name : String
  url : String
  macs : Dict String
  streamsPerMac : Nat
  proxy : String
  deriving Repr, DecidableEq

/-- The portals config store (`getPortals()` / `savePortals()`):
a dict from portal id to portal record. -/
abbrev Portals := Dict Portal

/-- `moveMac` on the whole store: reads the portal, rotates the MAC dict,
writes the portal back and persists.  `none` models a `KeyError`. -/
def moveMac (portals : Portals) (portalId mac : String) : Option Portals :=
  match dictGet portals portalId with
  | none => none
  | some p =>
    match moveMacL p.macs mac with
    | none => none
    | some macs2 => some (dictSet portals portalId { p with macs := macs2 })

/-! ## Occupancy and the free-slot check (`isMacFree`, line 4397)

`occupied` is a dict portalId → list of stream-info dicts.  A stream-info
dict is modelled by `StreamInfo`; Python dict equality is structural, which
`DecidableEq` mirrors. -/

structure StreamInfo where
  mac : String
  channelId : String
  channelName : String
  client : String
  portalName : String
  startTime : Int
  xcUser : Option String
  deriving Repr, DecidableEq

abbrev Occupied := Dict (List StreamInfo)

/-- `occupied.get(portalId, [])`. -/
def occList (occupied : Occupied) (portalId : String) : List StreamInfo :=
  (dictGet occupied portalId).getD []

/--
```python
def isMacFree():
    count = 0
    for i in occupied.get(portalId, []):
        if i["mac"] == mac:
            count = count + 1
    if count < streamsPerMac:
        return True
    else:
        return False
```
-/
def isMacFree (occupied : Occupied) (portalId mac : String)
    (streamsPerMac : Nat) : Bool :=
  ((occList occupied portalId).filter (fun i => i.mac == mac)).length
    < streamsPerMac

/-- The free-slot decision at the head of the candidate loop
(line 4432): `if streamsPerMac == 0 or isMacFree():`. -/
def macFreeCheck (occupied : Occupied) (portalId mac : String)
    (streamsPerMac : Nat) : Bool :=
  streamsPerMac == 0 || isMacFree occupied portalId mac streamsPerMac

/-! ## Python string operations

`str.replace` (leftmost, non-overlapping, replace all), `str.split()`
(split on whitespace runs, dropping empty fields) and substring
containment (`in`), modelled on `List Char`.  -/

/-- One replacement pass for a non-empty pattern `p :: ps`. -/
def replAux (p : Char) (ps : List Char) (rep : List Char) :
    List Char → List Char
  | [] => []
  | c :: cs =>
    if (p :: ps).isPrefixOf (c :: cs) then
      rep ++ replAux p ps rep (cs.drop ps.length)
    else
      c :: replAux p ps rep cs
  termination_by s => s.length
  decreasing_by
  · simp only [List.length_drop, List.length_cons]
    omega
  · simp

/-- Python `s.replace(pat, rep)`.  The empty pattern never occurs in the
embedded code, so it is mapped to the identity. -/
def replaceL (s pat rep : List Char) : List Char :=
  match pat with
  | [] => s
  | p :: ps => replAux p ps rep s

def pyReplace (s pat rep : String) : String :=
  ⟨replaceL s.toList pat.toList rep.toList⟩

/-- Python `s.split()` (no separator): split on whitespace runs. -/
def pySplitAux : List Char → List Char → List (List Char)
  | [], acc => if acc = [] then [] else [acc.reverse]
  | c :: cs, acc =>
    if c.isWhitespace then
      if acc = [] then pySplitAux cs [] else acc.reverse :: pySplitAux cs []
    else
      pySplitAux cs (c :: acc)

def pySplit (s : String) : List String :=
  (pySplitAux s.toList []).map (fun l => ⟨l⟩)

/-- Does `sub` occur as a contiguous run in `s`? -/
def isInfixL (sub : List Char) : List Char → Bool
  | [] => sub.isEmpty
  | c :: cs => sub.isPrefixOf (c :: cs) || isInfixL sub cs

/-- Python `sub in s` (substring containment). -/
def containsSub (s sub : String) : Bool :=
  isInfixL sub.toList s.toList

/-! Lemmas for computing `replaceL` over strings that interleave concrete
segments with symbolic ones. -/

/-- `clash pat x = true` means `pat` mismatches `x` on some position both
cover, so `pat` is not a prefix of `x ++ r` for any continuation `r`. -/
def clash : List Char → List Char → Bool
  | [], _ => false
  | _ :: _, [] => false
  | a :: as, b :: bs => a != b || clash as bs

/-- `allClash pat x = true` means no occurrence of `pat` can start inside
`x`, whatever follows `x`. -/
def allClash (pat : List Char) : List Char → Bool
  | [] => true
  | c :: cs => clash pat (c :: cs) && allClash pat cs

theorem clash_not_isPrefixOf {pat x : List Char} (h : clash pat x = true)
    (r : List Char) : pat.isPrefixOf (x ++ r) = false := by
  induction pat generalizing x with
  | nil => simp [clash] at h
  | cons a as ih =>
    cases x with
    | nil => simp [clash] at h
    | cons b bs =>
      simp only [clash, Bool.or_eq_true, bne_iff_ne] at h
      rcases h with h | h
      · simp [List.isPrefixOf, h]
      · simp only [List.cons_append, List.isPrefixOf,
          Bool.and_eq_false_imp]
        intro _
        exact ih h

theorem isPrefixOf_self_append (l r : List Char) :
    l.isPrefixOf (l ++ r) = true := by
  induction l with
  | nil => simp [List.isPrefixOf]
  | cons a as ih => simp [List.isPrefixOf, ih]

theorem replAux_skip {p : Char} {ps rep x : List Char}
    (h : allClash (p :: ps) x = true) (rest : List Char) :
    replAux p ps rep (x ++ rest) = x ++ replAux p ps rep rest := by
  induction x with
  | nil => simp
  | cons b bs ih =>
    simp only [allClash, Bool.and_eq_true] at h
    have hpre := clash_not_isPrefixOf h.1 rest
    simp only [List.cons_append] at hpre ⊢
    have hstep : replAux p ps rep (b :: (bs ++ rest)) =
        b :: replAux p ps rep (bs ++ rest) := by
      simp only [replAux]
      rw [if_neg (by simp [hpre])]
    rw [hstep, ih h.2]

theorem replAux_match {p : Char} {ps rep : List Char} (rest : List Char) :
    replAux p ps rep ((p :: ps) ++ rest) = rep ++ replAux p ps rep rest := by
  have hpre := isPrefixOf_self_append (p :: ps) rest
  simp only [List.cons_append] at hpre ⊢
  simp only [replAux]
  rw [if_pos hpre]
  congr 1
  exact congrArg (replAux p ps rep) (List.drop_left ps rest)

theorem replAux_of_allClash {p : Char} {ps rep x : List Char}
    (h : allClash (p :: ps) x = true) : replAux p ps rep x = x := by
  have h2 := @replAux_skip p ps rep x h []
  simpa [replAux] using h2

/-- No occurrence of `pat` can start inside `x` when the head of `pat`
does not occur in `x` at all. -/
theorem allClash_of_head_notMem {p : Char} {ps x : List Char}
    (h : p ∉ x) : allClash (p :: ps) x = true := by
  induction x with
  | nil => rfl
  | cons b bs ih =>
    simp only [List.mem_cons, not_or] at h
    simp only [allClash, Bool.and_eq_true]
    refine ⟨?_, ih h.2⟩
    simp only [clash, Bool.or_eq_true, bne_iff_ne]
    exact Or.inl h.1

theorem pySplitAux_word {x : List Char}
    (hx : ∀ c ∈ x, c.isWhitespace = false) (s acc : List Char) :
    pySplitAux (x ++ s) acc = pySplitAux s (x.reverse ++ acc) := by
  induction x generalizing acc with
  | nil => simp
  | cons b bs ih =>
    simp only [List.cons_append, pySplitAux]
    rw [if_neg (by simp [hx b (by simp)])]
    simp only [List.append_eq]
    rw [ih (fun c hc => hx c (by simp [hc]))]
    simp [List.append_assoc]

theorem pySplitAux_word_space {w : List Char} (hw : w ≠ [])
    (hx : ∀ c ∈ w, c.isWhitespace = false) (s : List Char) :
    pySplitAux (w ++ ' ' :: s) [] = w :: pySplitAux s [] := by
  rw [pySplitAux_word hx]
  simp only [pySplitAux, List.append_nil]
  rw [if_pos (by simp), if_neg (by simpa using hw)]
  simp

theorem pySplitAux_word_end {w : List Char} (hw : w ≠ [])
    (hx : ∀ c ∈ w, c.isWhitespace = false) :
    pySplitAux w [] = [w] := by
  have h2 := pySplitAux_word hx [] []
  simp only [List.append_nil] at h2
  rw [h2]
  simp only [pySplitAux]
  rw [if_neg (by simpa using hw)]
  simp

/-! ## Subprocess command construction (`stream_channel`, lines 4461–4498)

Web/browser mode forces a fixed argument vector; generic/player mode
substitutes placeholders in the configured template string and splits on
whitespace.  `ffmpeg_path = "ffmpeg"` (line 46).  An empty proxy string is
falsy in Python (`if proxy:`). -/

def webCmd (link proxy : String) : List String :=
  let base := ["ffmpeg", "-loglevel", "panic", "-hide_banner", "-i", link,
    "-vcodec", "copy", "-f", "mp4", "-movflags", "frag_keyframe+empty_moov",
    "pipe:"]
  if proxy ≠ "" then
    -- ffmpegcmd.insert(1, "-http_proxy"); ffmpegcmd.insert(2, proxy)
    "ffmpeg" :: "-http_proxy" :: proxy :: base.tail
  else
    base

def playerCmd (template link proxy : String) (timeoutSec : Nat) :
    List String :=
  let c0 := "ffmpeg " ++ template
  let c1 := pyReplace c0 "<url>" link
  let c2 := pyReplace c1 "<timeout>" (Nat.repr (timeoutSec * 1000000))
  let c3 :=
    if proxy ≠ "" then pyReplace c2 "<proxy>" proxy
    else pyReplace c2 "-http_proxy <proxy>" ""
  pySplit c3

/-- The shipped default of the `ffmpeg command` setting (line 157). -/
def defaultFfmpegCommand : String :=
  "-re -http_proxy <proxy> -timeout <timeout> -i <url> -map 0 -codec copy -f mpegts -flush_packets 0 -fflags +nobuffer -flags low_delay -strict experimental -analyzeduration 0 -probesize 32 -copyts -threads 12 pipe:"

/-! ## The session engine (`stream_channel`, lines 4418–4528)

The portal client `stb` is an oracle of pure functions; settings are read
once (they are constant during a request in the embedding). -/

structure Channel where
  id : String
  name : String
  cmd : String
  deriving Repr, DecidableEq

structure StbEnv where
  getToken : String → Option String
  getAllChannels : String → String → Option (List Channel)
  getLink : String → String → String → Option String
  probeOk : String → Bool

structure Settings where
  streamMethod : String
  ffmpegCommand : String
  ffmpegTimeout : Nat
  testStreams : String
  tryAllMacs : String
  deriving Repr, DecidableEq

structure Request where
  portalId : String
  channelId : String
  web : Bool
  deriving Repr, DecidableEq

inductive Outcome where
  | streamResp (cmd : List String) (mimetype : String)
  | redirect (link : String)
  | noStreams (freeMac : Bool)
  | notFound
  | pyError
  deriving Repr, DecidableEq

/-- The (body, status) pair the HTTP layer sends for each outcome. -/
def httpResponse : Outcome → String × Nat
  | .streamResp _ mt => (mt, 200)
  | .redirect link => (link, 302)
  | .noStreams _ => ("No streams available", 503)
  | .notFound => ("Portal not found", 404)
  | .pyError => ("Internal Server Error", 500)

/-- Does consuming the response of this outcome spawn a streaming
subprocess (and register an OccupancyEntry)?  Only a `Response(streamData())`
does; a redirect or an error body does not. -/
def requestSpawns : Outcome → Bool
  | .streamResp _ _ => true
  | _ => false

/-- Record of what happened for one candidate MAC in the selection loop. -/
structure MacAttempt where
  mac : String
  freeCheck : Bool
  tokenCalled : Bool
  probeCalled : Bool
  rotated : Bool
  deriving Repr, DecidableEq

/-- One candidate MAC (one iteration of `for mac in macs:`).
`none` means fall-through to `moveMac` + next candidate. -/
def tryMac (env : StbEnv) (s : Settings) (portal : Portal)
    (occupied : Occupied) (req : Request) (mac : String) :
    Option Outcome × Bool × Bool × Bool :=
  let free := macFreeCheck occupied req.portalId mac portal.streamsPerMac
  let token : Option String := if free then env.getToken mac else none
  let channels : Option (List Channel) :=
    match token with
    | none => none
    | some t => env.getAllChannels mac t
  let found : Option Channel :=
    (channels.getD []).find? (fun c => c.id == req.channelId)
  match found with
  | none => (none, free, free, false)
  | some c =>
    let cmd := c.cmd
    -- `if "http://localhost/" in cmd: link = stb.getLink(...)
    --  else: link = cmd.split(" ")[1]`
    let linkStep : Option (Option String) :=
      if containsSub cmd "http://localhost/" then
        some (env.getLink mac (token.getD "") cmd)
      else
        match (cmd.splitOn " ").get? 1 with
        | some l => some (some l)
        | none => none            -- IndexError
    match linkStep with
    | none => (some .pyError, free, true, false)
    | some linkVal =>
      match linkVal with
      | none => (none, free, true, false)
      | some link =>
        if link = "" then (none, free, true, false)   -- `if link:` falsy
        else
          let probeCalled := s.testStreams != "false"
          let testOK := s.testStreams == "false" || env.probeOk link
          if testOK then
            if req.web then
              (some (.streamResp (webCmd link portal.proxy) "video/mp2t"),
               free, true, probeCalled)
            else if s.streamMethod == "ffmpeg" then
              (some (.streamResp
                 (playerCmd s.ffmpegCommand link portal.proxy s.ffmpegTimeout)
                 "application/octet-stream"),
               free, true, probeCalled)
            else
              (some (.redirect link), free, true, probeCalled)
          else
            (none, free, true, probeCalled)

/-- The candidate loop.  Iterates the snapshot of MAC keys, threading the
portals store (mutated by `moveMac`) and accumulating per-MAC records. -/
def streamLoop (env : StbEnv) (s : Settings) (portal : Portal)
    (occupied : Occupied) (req : Request) :
    List String → Portals → Bool → List MacAttempt →
    Outcome × Portals × List MacAttempt
  | [], portals, freeMac, acc => (.noStreams freeMac, portals, acc)
  | mac :: rest, portals, freeMac, acc =>
    let (res, free, tok, probe) := tryMac env s portal occupied req mac
    match res with
    | some o =>
      (o, portals,
       acc ++ [⟨mac, free, tok, probe, false⟩])
    | none =>
      let portals2 := (moveMac portals req.portalId mac).getD portals
      let acc2 := acc ++ [⟨mac, free, tok, probe, true⟩]
      if s.tryAllMacs != "true" then
        (.noStreams (freeMac || free), portals2, acc2)
      else
        streamLoop env s portal occupied req rest portals2 (freeMac || free)
          acc2

/-- `stream_channel(portalId, channelId)`: look up the portal, then run the
candidate loop over the snapshot of its MAC keys. -/
def stream_channel (env : StbEnv) (s : Settings) (portals : Portals)
    (occupied : Occupied) (req : Request) :
    Outcome × Portals × List MacAttempt :=
  match dictGet portals req.portalId with
  | none => (.notFound, portals, [])
  | some portal =>
    streamLoop env s portal occupied req (dictKeys portal.macs) portals
      false []

/-! ## Stream supervision (`streamData`, lines 4321–4375)

```python
try:
    occupy()
    with subprocess.Popen(ffmpegcmd, ...) as ffmpeg_sp:
        while True:
            chunk = ffmpeg_sp.stdout.read(1024)
            if len(chunk) == 0:
                if ffmpeg_sp.poll() != 0:
                    moveMac(portalId, mac)
                break
            yield chunk
except:
    pass
finally:
    unoccupy()
    ffmpeg_sp.kill()
```

`occupy` appends the session's stream-info dict to `occupied[portalId]`;
`unoccupy` removes the first equal dict and swallows the `ValueError` when
it is absent.  `poll()` is `None` while the process is still running, so
the rotation guard `poll() != 0` also fires with no exit code. -/

def occupy (occupied : Occupied) (portalId : String) (e : StreamInfo) :
    Occupied :=
  -- occupied.setdefault(portalId, []); occupied.get(portalId, []).append(e)
  let occ := if dictHasKey occupied portalId then occupied
             else dictSet occupied portalId []
  dictSet occ portalId (occList occ portalId ++ [e])

def unoccupy (occupied : Occupied) (portalId : String) (e : StreamInfo) :
    Occupied :=
  -- try: occupied.get(portalId, []).remove(e) except ValueError: pass
  if dictHasKey occupied portalId then
    dictSet occupied portalId ((occList occupied portalId).erase e)
  else occupied

/-- The subprocess as observed through the read loop: the chunks its
stdout produces before EOF, and what `poll()` returns at EOF
(`none` = still running). -/
structure ProcBehavior where
  chunks : List Nat
  pollAtEof : Option Int
  deriving Repr, DecidableEq

/-- How the response generator is driven: consumed to the end, or closed
by the HTTP layer after `k` chunks (client disconnect / abandonment). -/
inductive ConsumeMode where
  | full
  | abortAfter (k : Nat)
  deriving Repr, DecidableEq

structure StreamRunResult where
  yielded : Nat
  occupied : Occupied
  portals : Portals
  killed : Bool
  rotated : Bool
  deriving Repr, DecidableEq

/-- Run of one `streamData` generator to termination.  Every exit path
(EOF, exception — swallowed by the bare `except` — or generator close)
funnels through the `finally` block: `unoccupy()` then `kill()`.
The rotation branch is reached only when the loop sees an empty read. -/
def streamDataRun (portals : Portals) (occupied : Occupied)
    (portalId mac : String) (e : StreamInfo) (pb : ProcBehavior)
    (mode : ConsumeMode) : StreamRunResult :=
  let occ1 := occupy occupied portalId e
  let reachedEof : Bool :=
    match mode with
    | .full => true
    | .abortAfter k => pb.chunks.length ≤ k
  let yielded : Nat :=
    match mode with
    | .full => pb.chunks.length
    | .abortAfter k => min k pb.chunks.length
  let rotated : Bool := reachedEof && (pb.pollAtEof != some 0)
  let portals2 :=
    if rotated then (moveMac portals portalId mac).getD portals else portals
  { yielded := yielded
    occupied := unoccupy occ1 portalId e
    portals := portals2
    killed := true
    rotated := rotated }

/-! ## HLS session manager (`HLSStreamManager`, lines 212–481) -/

inductive ProcState where
  | running
  | exited (code : Int)
  deriving Repr, DecidableEq

structure HLSSession where
  isPassthrough : Bool
  proc : Option ProcState
  tempDir : Nat
  lastAccessed : Int
  streamUrl : String
  deriving Repr, DecidableEq

structure HLSManager where
  streams : Dict HLSSession
  maxStreams : Nat
  inactiveTimeout : Int
  deriving Repr, DecidableEq

/-- `stream_key = f"{portal_id}_{channel_id}"`. -/
def hlsKey (portalId channelId : String) : String :=
  portalId ++ "_" ++ channelId

inductive StartResult where
  | reused (info : HLSSession)
  | started (info : HLSSession)
  | capacityError
  deriving Repr, DecidableEq

structure StartEffects where
  spawned : Bool
  madeTempDir : Bool
  deriving Repr, DecidableEq

/-- `start_stream(portal_id, channel_id, stream_url, proxy)` (line 323).
`isHls` stands for `is_hls_url`; `now` for `time.time()`; `freshDir` for
the `tempfile.mkdtemp` result. -/
def start_stream (m : HLSManager) (isHls : String → Bool) (now : Int)
    (freshDir : Nat) (portalId channelId url : String) :
    StartResult × HLSManager × StartEffects :=
  let key := hlsKey portalId channelId
  match dictGet m.streams key with
  | some info =>
    let info2 := { info with lastAccessed := now }
    (.reused info2, { m with streams := dictSet m.streams key info2 },
     ⟨false, false⟩)
  | none =>
    if m.streams.length ≥ m.maxStreams then
      (.capacityError, m, ⟨false, false⟩)
    else
      let passthrough := isHls url
      let info : HLSSession :=
        { isPassthrough := passthrough
          proc := if passthrough then none else some .running
          tempDir := freshDir
          lastAccessed := now
          streamUrl := url }
      (.started info, { m with streams := dictSet m.streams key info },
       ⟨!passthrough, true⟩)

/-- Is a session marked for removal by `_cleanup_inactive_streams`
(line 240)?  Transcoded sessions whose process has exited (or whose
process handle is unusable) are marked regardless of idle time; every
session is marked when idle strictly longer than the timeout. -/
def sweepMarked (info : HLSSession) (now timeout : Int) : Bool :=
  (!info.isPassthrough &&
    (match info.proc with
     | some .running => false
     | some (.exited _) => true
     | none => true)) ||
  (now - info.lastAccessed > timeout)

/-- One sweep cycle: mark under the lock, then `_stop_stream` each marked
key (terminate the process if running, delete the temp directory, drop
the registry entry).  Returns the new registry and the torn-down
sessions' temp directories. -/
def cleanupSweep (m : HLSManager) (now : Int) : HLSManager × List Nat :=
  let removed := m.streams.filter
    (fun kv => sweepMarked kv.2 now m.inactiveTimeout)
  let kept := m.streams.filter
    (fun kv => !sweepMarked kv.2 now m.inactiveTimeout)
  ({ m with streams := kept }, removed.map (fun kv => kv.2.tempDir))

/-! ## Dictionary lemmas -/

theorem dictGet_cons {α : Type} (k2 : String) (v2 : α) (l : Dict α)
    (k : String) :
    dictGet ((k2, v2) :: l) k =
      if k2 == k then some v2 else dictGet l k := by
  unfold dictGet
  cases hk : (k2 == k) <;> simp [List.find?, hk]

theorem dictHasKey_cons {α : Type} (k2 : String) (v2 : α) (l : Dict α)
    (k : String) :
    dictHasKey ((k2, v2) :: l) k =
      (k2 == k || dictHasKey l k) := by
  unfold dictHasKey
  cases hk : (k2 == k) <;> simp [List.find?, hk]

theorem dictSet_of_not_hasKey {α : Type} {d : Dict α} {k : String}
    (h : dictHasKey d k = false) (v : α) : dictSet d k v = d ++ [(k, v)] := by
  induction d with
  | nil => rfl
  | cons a l ih =>
    rw [dictHasKey_cons, Bool.or_eq_false_iff] at h
    cases a with
    | mk k2 v2 =>
      simp only [dictSet]
      rw [if_neg (by simp [h.1]), ih h.2]
      rfl

theorem dictGet_append_right {α : Type} {d : Dict α} {k : String}
    (h : dictHasKey d k = false) (v : α) :
    dictGet (d ++ [(k, v)]) k = some v := by
  induction d with
  | nil => simp [dictGet, List.find?]
  | cons a l ih =>
    cases a with
    | mk k2 v2 =>
      rw [dictHasKey_cons, Bool.or_eq_false_iff] at h
      rw [List.cons_append, dictGet_cons, if_neg (by simp [h.1])]
      exact ih h.2

theorem dictGet_append_ne {α : Type} (d : Dict α) {k k2 : String}
    (h : k ≠ k2) (v : α) : dictGet (d ++ [(k2, v)]) k = dictGet d k := by
  induction d with
  | nil =>
    unfold dictGet
    have hne : (k2 == k) = false := by
      simp only [beq_eq_false_iff_ne]
      exact Ne.symm h
    simp [List.find?, hne]
  | cons a l ih =>
    cases a with
    | mk k3 v3 =>
      rw [List.cons_append, dictGet_cons, dictGet_cons]
      cases hk : (k3 == k) <;> simp [ih]

theorem dictGet_dictDel_ne {α : Type} (d : Dict α) {k k2 : String}
    (h : k ≠ k2) : dictGet (dictDel d k2) k = dictGet d k := by
  induction d with
  | nil => rfl
  | cons a l ih =>
    cases a with
    | mk k3 v3 =>
      unfold dictDel
      rw [List.eraseP_cons]
      cases hk2 : ((k3, v3).1 == k2) with
      | true =>
        simp only [hk2, cond_true]
        rw [dictGet_cons, if_neg]
        simp only [beq_iff_eq] at hk2 ⊢
        exact fun hc => h (by rw [← hc, hk2])
      | false =>
        simp only [hk2, cond_false]
        rw [dictGet_cons, dictGet_cons]
        have ih2 : dictGet (List.eraseP (fun p => p.1 == k2) l) k =
            dictGet l k := ih
        cases hk : (k3 == k) <;> simp [ih2]

theorem dictHasKey_dictDel_of_nodup {α : Type} {d : Dict α} {k : String}
    (hnd : (dictKeys d).Nodup) : dictHasKey (dictDel d k) k = false := by
  induction d with
  | nil => rfl
  | cons a l ih =>
    cases a with
    | mk k2 v2 =>
      simp only [dictKeys, List.map_cons, List.nodup_cons] at hnd
      unfold dictDel
      rw [List.eraseP_cons]
      cases hk : ((k2, v2).1 == k) with
      | true =>
        simp only [hk, cond_true]
        simp only [beq_iff_eq] at hk
        subst hk
        unfold dictHasKey
        rw [List.find?_eq_none.mpr]
        · rfl
        · intro q hq
          simp only [beq_iff_eq]
          exact fun hc => hnd.1 (hc ▸ List.mem_map_of_mem Prod.fst hq)
      | false =>
        simp only [hk, cond_false]
        rw [dictHasKey_cons, hk, Bool.false_or]
        exact ih hnd.2

theorem dictDel_eq_filter_of_nodup {α : Type} {d : Dict α} {k : String}
    (hnd : (dictKeys d).Nodup) :
    dictDel d k = d.filter (fun q => !(q.1 == k)) := by
  induction d with
  | nil => rfl
  | cons a l ih =>
    cases a with
    | mk k2 v2 =>
      simp only [dictKeys, List.map_cons, List.nodup_cons] at hnd
      unfold dictDel
      rw [List.eraseP_cons]
      cases hk : ((k2, v2).1 == k) with
      | true =>
        simp only [hk, cond_true, List.filter_cons]
        rw [if_neg (by simp [hk])]
        simp only [beq_iff_eq] at hk
        subst hk
        refine (List.filter_eq_self.mpr ?_).symm
        intro q hq
        simp only [Bool.not_eq_true', beq_eq_false_iff_ne]
        exact fun hc => hnd.1 (hc ▸ List.mem_map_of_mem Prod.fst hq)
      | false =>
        simp only [hk, cond_false, List.filter_cons]
        have ih2 : List.eraseP (fun p => p.1 == k) l =
            List.filter (fun q => !(q.1 == k)) l := ih hnd.2
        rw [if_pos (by simp [hk]), ih2]

theorem dictGet_dictSet_self {α : Type} (d : Dict α) (k : String) (v : α) :
    dictGet (dictSet d k v) k = some v := by
  induction d with
  | nil => simp [dictSet, dictGet, List.find?]
  | cons a l ih =>
    cases a with
    | mk k2 v2 =>
      simp only [dictSet]
      cases hk : (k2 == k) with
      | true =>
        rw [if_pos rfl, dictGet_cons, if_pos (by simp)]
      | false =>
        rw [if_neg (by simp), dictGet_cons, if_neg (by simp [hk])]
        exact ih

/-! ## C1 & C4 -/

/-- Evaluation of `moveMac` when the portal and the MAC both exist and
the MAC dict has unique keys. -/
theorem moveMac_eq {portals : Portals} {pid mac : String} {p : Portal}
    {x : String} (hp : dictGet portals pid = some p)
    (hm : dictGet p.macs mac = some x)
    (hnd : (dictKeys p.macs).Nodup) :
    moveMac portals pid mac =
      some (dictSet portals pid
        { p with macs := dictDel p.macs mac ++ [(mac, x)] }) := by
  have hdel : dictHasKey (dictDel p.macs mac) mac = false :=
    dictHasKey_dictDel_of_nodup hnd
  simp only [moveMac, moveMacL, hp, hm]
  rw [dictSet_of_not_hasKey hdel]

/-- C1.  For every portal whose MAC dict contains `mac`, `moveMac`
removes `mac` from its position and re-appends it at the end (same expiry
value), leaves every other entry's value and relative order unchanged,
and the store it persists via `savePortals` is exactly that updated
store. -/
theorem moveMac_rotates (portals : Portals) (pid mac : String) (p : Portal)
    (x : String) (hp : dictGet portals pid = some p)
    (hm : dictGet p.macs mac = some x)
    (hnd : (dictKeys p.macs).Nodup) :
    moveMac portals pid mac =
      some (dictSet portals pid
        { p with macs := dictDel p.macs mac ++ [(mac, x)] }) ∧
    dictGet (dictSet portals pid
        { p with macs := dictDel p.macs mac ++ [(mac, x)] }) pid =
      some { p with macs := dictDel p.macs mac ++ [(mac, x)] } ∧
    dictGet (dictDel p.macs mac ++ [(mac, x)]) mac = some x ∧
    (∀ k, k ≠ mac →
      dictGet (dictDel p.macs mac ++ [(mac, x)]) k = dictGet p.macs k) ∧
    (dictDel p.macs mac ++ [(mac, x)]).filter (fun q => !(q.1 == mac)) =
      p.macs.filter (fun q => !(q.1 == mac)) := by
  have hdel : dictHasKey (dictDel p.macs mac) mac = false :=
    dictHasKey_dictDel_of_nodup hnd
  refine ⟨moveMac_eq hp hm hnd, dictGet_dictSet_self _ _ _,
    dictGet_append_right hdel x, ?_, ?_⟩
  · intro k hk
    rw [dictGet_append_ne _ hk x, dictGet_dictDel_ne _ hk]
  · rw [List.filter_append, dictDel_eq_filter_of_nodup hnd,
      List.filter_filter]
    simp [List.filter]

/-- A concrete three-MAC portal used by witnesses. -/
def portalABC : Portal where
  name := "P"
  url := "u"
  macs := [("A", "x"), ("B", "y"), ("C", "z")]
  streamsPerMac := 1
  proxy := ""

/-- `portalABC` after its MAC `B` is rotated to the back. -/
def portalACB : Portal where
  name := "P"
  url := "u"
  macs := [("A", "x"), ("C", "z"), ("B", "y")]
  streamsPerMac := 1
  proxy := ""

/-- Witness for C1 on a concrete three-MAC portal. -/
theorem moveMac_rotates_witness :
    moveMac [("p1", portalABC)] "p1" "B" = some [("p1", portalACB)] := by
  have h := moveMac_rotates [("p1", portalABC)] "p1" "B" portalABC "y"
    (by decide) (by decide) (by decide)
  rw [h.1]
  decide

/-- C4.  The free-slot decision `streamsPerMac == 0 or isMacFree()` is
true exactly when the limit is 0 or the matching occupancy count is
strictly below it; with limit 0 it passes for every occupancy state. -/
theorem macFreeCheck_spec :
    (∀ (occ : Occupied) (pid mac : String) (sp : Nat),
      macFreeCheck occ pid mac sp = true ↔
        (sp = 0 ∨
          ((occList occ pid).filter (fun i => i.mac == mac)).length < sp)) ∧
    (∀ (occ : Occupied) (pid mac : String),
      macFreeCheck occ pid mac 0 = true) := by
  constructor
  · intro occ pid mac sp
    unfold macFreeCheck isMacFree
    simp
  · intro occ pid mac
    unfold macFreeCheck
    simp

/-! ## C8: HLS registry invariants -/

theorem dictHasKey_eq_false_iff {α : Type} {d : Dict α} {k : String} :
    dictHasKey d k = false ↔ dictGet d k = none := by
  unfold dictHasKey dictGet
  cases d.find? (fun p => p.1 == k) <;> simp

theorem dictGet_dictSet_ne {α : Type} (d : Dict α) {k k2 : String}
    (h : k ≠ k2) (v : α) : dictGet (dictSet d k2 v) k = dictGet d k := by
  induction d with
  | nil =>
    unfold dictGet
    have hne : (k2 == k) = false := by
      simp only [beq_eq_false_iff_ne]
      exact Ne.symm h
    simp [dictSet, List.find?, hne]
  | cons a l ih =>
    cases a with
    | mk k3 v3 =>
      simp only [dictSet]
      cases hk3 : (k3 == k2) with
      | true =>
        rw [if_pos rfl, dictGet_cons, dictGet_cons]
        have hne : (k2 == k) = false := by
          simp only [beq_eq_false_iff_ne]
          exact Ne.symm h
        simp only [beq_iff_eq] at hk3
        subst hk3
        simp [hne]
      | false =>
        rw [if_neg (by simp), dictGet_cons, dictGet_cons]
        cases hk : (k3 == k) <;> simp [ih]

theorem mem_dictKeys_dictSet {α : Type} {d : Dict α} {k a : String}
    (v : α) : a ∈ dictKeys (dictSet d k v) ↔ a ∈ dictKeys d ∨ a = k := by
  induction d with
  | nil => simp [dictSet, dictKeys]
  | cons p l ih =>
    cases p with
    | mk k2 v2 =>
      simp only [dictSet]
      cases hk2 : (k2 == k) with
      | true =>
        rw [if_pos rfl]
        simp only [beq_iff_eq] at hk2
        subst hk2
        simp only [dictKeys, List.map_cons, List.mem_cons]
        constructor
        · rintro (h | h)
          · exact Or.inr h
          · exact Or.inl (Or.inr h)
        · rintro ((h | h) | h)
          · exact Or.inl h
          · exact Or.inr h
          · exact Or.inl h
      | false =>
        rw [if_neg (by simp)]
        simp only [dictKeys, List.map_cons, List.mem_cons] at ih ⊢
        rw [ih]
        tauto

theorem dictKeys_nodup_dictSet {α : Type} {d : Dict α} {k : String}
    (v : α) (hnd : (dictKeys d).Nodup) :
    (dictKeys (dictSet d k v)).Nodup := by
  induction d with
  | nil => simp [dictSet, dictKeys]
  | cons p l ih =>
    cases p with
    | mk k2 v2 =>
      simp only [dictKeys, List.map_cons, List.nodup_cons] at hnd
      simp only [dictSet]
      cases hk2 : (k2 == k) with
      | true =>
        rw [if_pos rfl]
        simp only [beq_iff_eq] at hk2
        subst hk2
        simp only [dictKeys, List.map_cons, List.nodup_cons]
        exact hnd
      | false =>
        rw [if_neg (by simp)]
        simp only [dictKeys, List.map_cons, List.nodup_cons]
        refine ⟨?_, ih hnd.2⟩
        intro hmem
        rcases (mem_dictKeys_dictSet v).mp hmem with h | h
        · exact hnd.1 h
        · simp [h] at hk2

theorem dictSet_length {α : Type} (d : Dict α) (k : String) (v : α) :
    (dictSet d k v).length =
      if dictHasKey d k then d.length else d.length + 1 := by
  induction d with
  | nil => simp [dictSet, dictHasKey, List.find?]
  | cons p l ih =>
    cases p with
    | mk k2 v2 =>
      simp only [dictSet]
      rw [dictHasKey_cons]
      cases hk2 : (k2 == k) with
      | true => simp
      | false =>
        rw [if_neg (by simp), Bool.false_or]
        simp only [List.length_cons, ih]
        cases dictHasKey l k <;> simp

theorem dictKeys_dictSet_of_get_some {α : Type} {d : Dict α} {k : String}
    {v0 : α} (h : dictGet d k = some v0) (v : α) :
    dictKeys (dictSet d k v) = dictKeys d := by
  induction d with
  | nil => simp [dictGet, List.find?] at h
  | cons p l ih =>
    cases p with
    | mk k2 v2 =>
      rw [dictGet_cons] at h
      simp only [dictSet]
      cases hk2 : (k2 == k) with
      | true =>
        rw [if_pos rfl]
        simp only [beq_iff_eq] at hk2
        subst hk2
        simp [dictKeys]
      | false =>
        rw [if_neg (by simp)]
        rw [if_neg (by simp [hk2])] at h
        have ih2 : List.map Prod.fst (dictSet l k v) =
            List.map Prod.fst l := ih h
        simp [dictKeys, ih2]

/-- `info` with its `last_accessed` field refreshed to `now`. -/
def touch (info : HLSSession) (now : Int) : HLSSession :=
  { info with lastAccessed := now }

/-- `m` with its registry replaced. -/
def setStreams (m : HLSManager) (s : Dict HLSSession) : HLSManager :=
  { m with streams := s }

/-- The fresh session record built by `start_stream` when no session
exists for the key and there is room. -/
def newSession (isHls : String → Bool) (url : String) (freshDir : Nat)
    (now : Int) : HLSSession where
  isPassthrough := isHls url
  proc := if isHls url then none else some .running
  tempDir := freshDir
  lastAccessed := now
  streamUrl := url

@[simp]
theorem setStreams_streams (m : HLSManager) (s : Dict HLSSession) :
    (setStreams m s).streams = s := rfl

theorem start_stream_get_some {m : HLSManager} {pid cid : String}
    {info : HLSSession} (isHls : String → Bool) (now : Int) (freshDir : Nat)
    (url : String) (hg : dictGet m.streams (hlsKey pid cid) = some info) :
    start_stream m isHls now freshDir pid cid url =
      (.reused (touch info now),
       setStreams m (dictSet m.streams (hlsKey pid cid) (touch info now)),
       ⟨false, false⟩) := by
  unfold start_stream
  simp only [hg]
  rfl

theorem start_stream_none_full {m : HLSManager} {pid cid : String}
    (isHls : String → Bool) (now : Int) (freshDir : Nat) (url : String)
    (hg : dictGet m.streams (hlsKey pid cid) = none)
    (hlen : m.streams.length ≥ m.maxStreams) :
    start_stream m isHls now freshDir pid cid url =
      (.capacityError, m, ⟨false, false⟩) := by
  unfold start_stream
  simp only [hg]
  simp [hlen]

theorem start_stream_none_room {m : HLSManager} {pid cid : String}
    (isHls : String → Bool) (now : Int) (freshDir : Nat) (url : String)
    (hg : dictGet m.streams (hlsKey pid cid) = none)
    (hlen : ¬ m.streams.length ≥ m.maxStreams) :
    start_stream m isHls now freshDir pid cid url =
      (.started (newSession isHls url freshDir now),
       setStreams m (dictSet m.streams (hlsKey pid cid)
         (newSession isHls url freshDir now)),
       ⟨!(isHls url), true⟩) := by
  unfold start_stream
  simp only [hg]
  rw [if_neg (by simpa using hlen)]
  rfl

/-- C8.  The HLS session registry keeps at most one session per
`portal_channel` key and at most `max_streams` sessions; `start_stream`
on an existing key refreshes `last_accessed` and returns the session with
no new process and no new temp directory, leaving every other entry
untouched; `start_stream` on a new key at capacity fails with the
capacity error and leaves the manager unchanged. -/
theorem hls_start_stream_spec :
    (∀ (m : HLSManager) (isHls : String → Bool) (now : Int) (freshDir : Nat)
       (pid cid url : String),
       (dictKeys m.streams).Nodup →
       (dictKeys
         (start_stream m isHls now freshDir pid cid url).2.1.streams).Nodup) ∧
    (∀ (m : HLSManager) (isHls : String → Bool) (now : Int) (freshDir : Nat)
       (pid cid url : String),
       m.streams.length ≤ m.maxStreams →
       (start_stream m isHls now freshDir pid cid url).2.1.streams.length ≤
         m.maxStreams) ∧
    (∀ (m : HLSManager) (isHls : String → Bool) (now : Int) (freshDir : Nat)
       (pid cid url : String) (info : HLSSession),
       dictGet m.streams (hlsKey pid cid) = some info →
       start_stream m isHls now freshDir pid cid url =
         (.reused (touch info now),
          setStreams m
            (dictSet m.streams (hlsKey pid cid) (touch info now)),
          ⟨false, false⟩) ∧
       dictKeys (dictSet m.streams (hlsKey pid cid) (touch info now)) =
         dictKeys m.streams ∧
       (∀ k, k ≠ hlsKey pid cid →
         dictGet (dictSet m.streams (hlsKey pid cid) (touch info now)) k =
           dictGet m.streams k)) ∧
    (∀ (m : HLSManager) (isHls : String → Bool) (now : Int) (freshDir : Nat)
       (pid cid url : String),
       dictGet m.streams (hlsKey pid cid) = none →
       m.streams.length ≥ m.maxStreams →
       start_stream m isHls now freshDir pid cid url =
         (.capacityError, m, ⟨false, false⟩)) := by
  refine ⟨?_, ?_, ?_, ?_⟩
  · intro m isHls now freshDir pid cid url hnd
    cases hg : dictGet m.streams (hlsKey pid cid) with
    | some info =>
      rw [start_stream_get_some isHls now freshDir url hg]
      simpa using dictKeys_nodup_dictSet _ hnd
    | none =>
      by_cases hlen : m.streams.length ≥ m.maxStreams
      · rw [start_stream_none_full isHls now freshDir url hg hlen]
        exact hnd
      · rw [start_stream_none_room isHls now freshDir url hg hlen]
        simpa using dictKeys_nodup_dictSet _ hnd
  · intro m isHls now freshDir pid cid url hle
    cases hg : dictGet m.streams (hlsKey pid cid) with
    | some info =>
      rw [start_stream_get_some isHls now freshDir url hg]
      simp only [setStreams_streams]
      rw [dictSet_length]
      have hhk : dictHasKey m.streams (hlsKey pid cid) = true := by
        cases hhk : dictHasKey m.streams (hlsKey pid cid) with
        | true => rfl
        | false => rw [dictHasKey_eq_false_iff.mp hhk] at hg; cases hg
      simpa [hhk]
    | none =>
      by_cases hlen : m.streams.length ≥ m.maxStreams
      · rw [start_stream_none_full isHls now freshDir url hg hlen]
        exact hle
      · rw [start_stream_none_room isHls now freshDir url hg hlen]
        simp only [setStreams_streams]
        rw [dictSet_length,
          if_neg (by simp [dictHasKey_eq_false_iff.mpr hg])]
        omega
  · intro m isHls now freshDir pid cid url info hg
    exact ⟨start_stream_get_some isHls now freshDir url hg,
      dictKeys_dictSet_of_get_some hg _,
      fun k hk => dictGet_dictSet_ne _ hk _⟩
  · intro m isHls now freshDir pid cid url hg hlen
    exact start_stream_none_full isHls now freshDir url hg hlen

/-- A concrete running transcoded HLS session for witnesses. -/
def sessionA : HLSSession where
  isPassthrough := false
  proc := some .running
  tempDir := 1
  lastAccessed := 100
  streamUrl := "http://cdn/x"

/-- A one-slot manager holding `sessionA` under key `p_1`. -/
def mgr1 : HLSManager where
  streams := [("p_1", sessionA)]
  maxStreams := 1
  inactiveTimeout := 30

/-- Witness for C8: reuse on the existing key, capacity error on a new
key while full. -/
theorem hls_start_stream_spec_witness :
    start_stream mgr1 (fun _ => false) 200 5 "p" "1" "u" =
      (.reused (touch sessionA 200),
       setStreams mgr1
         (dictSet mgr1.streams (hlsKey "p" "1") (touch sessionA 200)),
       ⟨false, false⟩) ∧
    start_stream mgr1 (fun _ => false) 200 5 "p" "2" "u" =
      (.capacityError, mgr1, ⟨false, false⟩) :=
  ⟨(hls_start_stream_spec.2.2.1 mgr1 (fun _ => false) 200 5 "p" "1" "u"
      sessionA (by decide)).1,
   hls_start_stream_spec.2.2.2 mgr1 (fun _ => false) 200 5 "p" "2" "u"
      (by decide) (by decide)⟩

/-! ## C9: HLS eviction sweep -/

theorem dictGet_none_of_not_mem_keys {α : Type} {d : Dict α} {k : String}
    (h : k ∉ dictKeys d) : dictGet d k = none := by
  induction d with
  | nil => rfl
  | cons p l ih =>
    cases p with
    | mk k2 v2 =>
      simp only [dictKeys, List.map_cons, List.mem_cons, not_or] at h
      rw [dictGet_cons, if_neg (by simp [Ne.symm h.1])]
      exact ih h.2

theorem dictGet_filter {α : Type} {d : Dict α} {k : String} {v : α}
    (hnd : (dictKeys d).Nodup) (h : dictGet d k = some v)
    (P : String × α → Bool) :
    dictGet (d.filter P) k = if P (k, v) then some v else none := by
  induction d with
  | nil => simp [dictGet, List.find?] at h
  | cons p l ih =>
    cases p with
    | mk k2 v2 =>
      simp only [dictKeys, List.map_cons, List.nodup_cons] at hnd
      rw [dictGet_cons] at h
      cases hk2 : (k2 == k) with
      | true =>
        rw [if_pos hk2] at h
        have hv : v2 = v := by injection h
        subst hv
        have hkk : k2 = k := by simpa [beq_iff_eq] using hk2
        subst hkk
        rw [List.filter_cons]
        cases hp : P (k2, v2) with
        | true =>
          rw [if_pos (by simp [hp]), dictGet_cons, if_pos (by simp)]
          simp [hp]
        | false =>
          rw [if_neg (by simp [hp])]
          have hnone : dictGet (List.filter P l) k2 = none := by
            apply dictGet_none_of_not_mem_keys
            intro hmem
            apply hnd.1
            simp only [dictKeys, List.mem_map] at hmem ⊢
            obtain ⟨q, hq, hqe⟩ := hmem
            exact ⟨q, List.mem_of_mem_filter hq, hqe⟩
          rw [hnone, if_neg (by simp [hp])]
      | false =>
        rw [if_neg (by simp [hk2])] at h
        rw [List.filter_cons]
        cases hp : P (k2, v2) with
        | true =>
          rw [if_pos (by simp [hp]), dictGet_cons, if_neg (by simp [hk2])]
          exact ih hnd.2 h
        | false =>
          rw [if_neg (by simp [hp])]
          exact ih hnd.2 h

theorem dictGet_some_mem {α : Type} {d : Dict α} {k : String} {v : α}
    (h : dictGet d k = some v) : (k, v) ∈ d := by
  induction d with
  | nil => simp [dictGet, List.find?] at h
  | cons p l ih =>
    cases p with
    | mk k2 v2 =>
      rw [dictGet_cons] at h
      cases hk2 : (k2 == k) with
      | true =>
        rw [if_pos hk2] at h
        cases h
        simp only [beq_iff_eq] at hk2
        subst hk2
        exact List.mem_cons_self _ _
      | false =>
        rw [if_neg (by simp [hk2])] at h
        exact List.mem_cons_of_mem _ (ih h)

/-- C9 (amended).  At a sweep, a session idle strictly longer than the
timeout is removed (its registry entry dropped, its temp directory torn
down) — passthrough sessions included; a transcoded session whose backing
process is no longer running is removed regardless of idle time; a
session within the timeout whose process is still running (or which is a
passthrough session) is retained. -/
theorem hls_sweep_spec (m : HLSManager) (now : Int) (k : String)
    (info : HLSSession) (hnd : (dictKeys m.streams).Nodup)
    (hg : dictGet m.streams k = some info) :
    (now - info.lastAccessed > m.inactiveTimeout →
       dictGet (cleanupSweep m now).1.streams k = none ∧
       info.tempDir ∈ (cleanupSweep m now).2) ∧
    (info.isPassthrough = false → info.proc ≠ some .running →
       dictGet (cleanupSweep m now).1.streams k = none ∧
       info.tempDir ∈ (cleanupSweep m now).2) ∧
    (now - info.lastAccessed ≤ m.inactiveTimeout →
       (info.isPassthrough = true ∨ info.proc = some .running) →
       dictGet (cleanupSweep m now).1.streams k = some info) := by
  have hmem := dictGet_some_mem hg
  have hremoved : ∀ hmark : sweepMarked info now m.inactiveTimeout = true,
      dictGet (cleanupSweep m now).1.streams k = none ∧
      info.tempDir ∈ (cleanupSweep m now).2 := by
    intro hmark
    constructor
    · unfold cleanupSweep
      rw [dictGet_filter hnd hg]
      simp [hmark]
    · unfold cleanupSweep
      refine List.mem_map.mpr ⟨(k, info), ?_, rfl⟩
      exact List.mem_filter.mpr ⟨hmem, hmark⟩
  refine ⟨?_, ?_, ?_⟩
  · intro hidle
    refine hremoved ?_
    unfold sweepMarked
    simp [hidle]
  · intro hpass hproc
    refine hremoved ?_
    unfold sweepMarked
    cases hp : info.proc with
    | none => simp [hpass]
    | some st =>
      cases st with
      | running => exact absurd hp hproc
      | exited c => simp [hpass]
  · intro hidle hlive
    have hmark : sweepMarked info now m.inactiveTimeout = false := by
      unfold sweepMarked
      have h2 : ¬ (now - info.lastAccessed > m.inactiveTimeout) := by omega
      rcases hlive with h | h
      · simp [h, h2]
      · simp [h, h2]
    unfold cleanupSweep
    rw [dictGet_filter hnd hg]
    simp [hmark]

/-- A transcoded session whose ffmpeg has already exited cleanly,
last accessed 5 seconds ago. -/
def sessionCrashed : HLSSession where
  isPassthrough := false
  proc := some (.exited 0)
  tempDir := 2
  lastAccessed := 95
  streamUrl := "u"

def mgrC : HLSManager where
  streams := [("p_1", sessionCrashed)]
  maxStreams := 10
  inactiveTimeout := 30

/-- Counterexample to C9 as stated: this session's idle time (5 s) is
below the 30 s timeout, yet the sweep removes it, because its backing
process has exited. -/
theorem hls_sweep_counterexample :
    100 - sessionCrashed.lastAccessed ≤ mgrC.inactiveTimeout ∧
    dictGet (cleanupSweep mgrC 100).1.streams "p_1" = none := by
  decide

/-- Transcoded, process running, idle 31 s at `now = 100`. -/
def sess31 : HLSSession where
  isPassthrough := false
  proc := some .running
  tempDir := 3
  lastAccessed := 69
  streamUrl := "u"

/-- Transcoded, process running, idle 29 s at `now = 100`. -/
def sess29 : HLSSession where
  isPassthrough := false
  proc := some .running
  tempDir := 4
  lastAccessed := 71
  streamUrl := "u"

/-- Passthrough, idle 31 s at `now = 100`. -/
def pass31 : HLSSession where
  isPassthrough := true
  proc := none
  tempDir := 5
  lastAccessed := 69
  streamUrl := "u"

def mgrD : HLSManager where
  streams := [("a_1", sess31), ("a_2", sess29), ("a_3", pass31)]
  maxStreams := 10
  inactiveTimeout := 30

/-- Witness for the amended C9 (Scenario D): with timeout 30, a session
idle 31 s is evicted, one idle 29 s is retained, and a passthrough
session idle 31 s is evicted as well. -/
theorem hls_sweep_spec_witness :
    dictGet (cleanupSweep mgrD 100).1.streams "a_1" = none ∧
    dictGet (cleanupSweep mgrD 100).1.streams "a_2" = some sess29 ∧
    dictGet (cleanupSweep mgrD 100).1.streams "a_3" = none :=
  ⟨((hls_sweep_spec mgrD 100 "a_1" sess31 (by decide) (by decide)).1
      (by decide)).1,
   (hls_sweep_spec mgrD 100 "a_2" sess29 (by decide) (by decide)).2.2
      (by decide) (Or.inr rfl),
   ((hls_sweep_spec mgrD 100 "a_3" pass31 (by decide) (by decide)).1
      (by decide)).1⟩

/-! ## C6 & C7: the read loop and cleanup of `streamData` -/

theorem dictHasKey_dictSet_self {α : Type} (d : Dict α) (k : String)
    (v : α) : dictHasKey (dictSet d k v) k = true := by
  induction d with
  | nil => simp [dictSet, dictHasKey, List.find?]
  | cons p l ih =>
    cases p with
    | mk k2 v2 =>
      simp only [dictSet]
      cases hk2 : (k2 == k) with
      | true =>
        rw [if_pos rfl, dictHasKey_cons]
        simp
      | false =>
        rw [if_neg (by simp), dictHasKey_cons, hk2, Bool.false_or]
        exact ih

theorem dictSet_dictSet_same {α : Type} (d : Dict α) (k : String)
    (v w : α) : dictSet (dictSet d k v) k w = dictSet d k w := by
  induction d with
  | nil => simp [dictSet]
  | cons p l ih =>
    cases p with
    | mk k2 v2 =>
      simp only [dictSet]
      cases hk2 : (k2 == k) with
      | true =>
        rw [if_pos rfl]
        simp [dictSet]
      | false =>
        rw [if_neg (by simp)]
        simp only [dictSet]
        rw [if_neg (by simp [hk2]), if_neg (by simp [hk2]), ih]

theorem occList_dictSet_self (occ : Occupied) (pid : String)
    (l : List StreamInfo) : occList (dictSet occ pid l) pid = l := by
  unfold occList
  rw [dictGet_dictSet_self]
  rfl

theorem occList_dictSet_ne (occ : Occupied) {pid pid2 : String}
    (h : pid2 ≠ pid) (l : List StreamInfo) :
    occList (dictSet occ pid l) pid2 = occList occ pid2 := by
  unfold occList
  rw [dictGet_dictSet_ne _ h]

/-- `occupy` always amounts to appending the entry to the portal's
(list-valued) slot, whether or not the slot existed. -/
theorem occupy_eq (occ : Occupied) (pid : String) (e : StreamInfo) :
    occupy occ pid e = dictSet occ pid (occList occ pid ++ [e]) := by
  unfold occupy
  cases hk : dictHasKey occ pid with
  | true => simp
  | false =>
    simp only [Bool.false_eq_true, if_false]
    rw [occList_dictSet_self, dictSet_dictSet_same]
    unfold occList
    rw [dictHasKey_eq_false_iff.mp hk]
    rfl

theorem unoccupy_eq {occ : Occupied} {pid : String}
    (hk : dictHasKey occ pid = true) (e : StreamInfo) :
    unoccupy occ pid e = dictSet occ pid ((occList occ pid).erase e) := by
  unfold unoccupy
  rw [if_pos hk]

/-- The occupancy part of a `streamData` run: independent of how the
generator exits. -/
theorem streamDataRun_occupied (portals : Portals) (occ : Occupied)
    (pid mac : String) (e : StreamInfo) (pb : ProcBehavior)
    (mode : ConsumeMode) (honce : e ∉ occList occ pid) :
    (streamDataRun portals occ pid mac e pb mode).occupied =
      dictSet occ pid (occList occ pid) := by
  unfold streamDataRun
  simp only []
  rw [occupy_eq, unoccupy_eq (dictHasKey_dictSet_self _ _ _),
    occList_dictSet_self, dictSet_dictSet_same,
    List.erase_append_right _ honce]
  have : [e].erase e = [] := by simp
  rw [this, List.append_nil]

/-- C7 (amended).  For every `streamData` run, on each exit path (full
consumption or abandonment after `k` chunks) exactly one removal of the
session's OccupancyEntry happens — so the portal's occupancy list returns
to its pre-session state and other portals are untouched — and the
subprocess is killed; provided the occupancy list held no other entry
equal to the session's, running the cleanup a second time removes nothing
further and raises no error, leaving the state unchanged. -/
theorem streamData_cleanup (portals : Portals) (occ : Occupied)
    (pid mac : String) (e : StreamInfo) (pb : ProcBehavior)
    (mode : ConsumeMode) (honce : e ∉ occList occ pid) :
    occList (streamDataRun portals occ pid mac e pb mode).occupied pid =
      occList occ pid ∧
    (∀ pid2, pid2 ≠ pid →
      occList (streamDataRun portals occ pid mac e pb mode).occupied pid2 =
        occList occ pid2) ∧
    (streamDataRun portals occ pid mac e pb mode).killed = true ∧
    unoccupy (streamDataRun portals occ pid mac e pb mode).occupied pid e =
      (streamDataRun portals occ pid mac e pb mode).occupied := by
  rw [streamDataRun_occupied portals occ pid mac e pb mode honce]
  refine ⟨occList_dictSet_self _ _ _, ?_, rfl, ?_⟩
  · intro pid2 h2
    exact occList_dictSet_ne _ h2 _
  · rw [unoccupy_eq (dictHasKey_dictSet_self _ _ _),
      occList_dictSet_self, List.erase_of_not_mem honce,
      dictSet_dictSet_same]

/-- A concrete session entry for witnesses and counterexamples. -/
def infoB : StreamInfo where
  mac := "B"
  channelId := "5"
  channelName := "Five"
  client := "1.2.3.4"
  portalName := "P"
  startTime := 0
  xcUser := none

/-- Witness for the amended C7 at a concrete session. -/
theorem streamData_cleanup_witness :
    occList (streamDataRun [("p1", portalABC)] [] "p1" "B" infoB
        ⟨[7, 9], some 0⟩ .full).occupied "p1" = [] ∧
    unoccupy (streamDataRun [("p1", portalABC)] [] "p1" "B" infoB
        ⟨[7, 9], some 0⟩ .full).occupied "p1" infoB =
      (streamDataRun [("p1", portalABC)] [] "p1" "B" infoB
        ⟨[7, 9], some 0⟩ .full).occupied :=
  have h := streamData_cleanup [("p1", portalABC)] [] "p1" "B" infoB
    ⟨[7, 9], some 0⟩ .full (by decide)
  ⟨h.1, h.2.2.2⟩

/-- Counterexample to C7 as stated: if another OccupancyEntry equal to
the session's is present (two sessions with identical stream-info
dicts), running the session's cleanup a second time removes that second
entry as well — the occupancy state is not unchanged by the repeat. -/
theorem streamData_cleanup_counterexample :
    unoccupy (streamDataRun [] [("p1", [infoB])] "p1" "B" infoB
        ⟨[], some 0⟩ .full).occupied "p1" infoB ≠
      (streamDataRun [] [("p1", [infoB])] "p1" "B" infoB
        ⟨[], some 0⟩ .full).occupied := by
  decide

/-- C6 (amended).  When the read loop sees an empty 1 KiB read, it stops;
the serving MAC is rotated to the back of its portal's list exactly when
`poll()` is not 0 — a non-zero exit code, or a process that has not yet
exited (`poll()` returns `None`); exit code 0 triggers no rotation. -/
theorem streamData_rotation (portals : Portals) (occ : Occupied)
    (pid mac : String) (e : StreamInfo) (pb : ProcBehavior) (p : Portal)
    (x : String) (hp : dictGet portals pid = some p)
    (hm : dictGet p.macs mac = some x)
    (hnd : (dictKeys p.macs).Nodup) :
    (streamDataRun portals occ pid mac e pb .full).rotated =
      (pb.pollAtEof != some 0) ∧
    (streamDataRun portals occ pid mac e pb .full).yielded =
      pb.chunks.length ∧
    (pb.pollAtEof = some 0 →
      (streamDataRun portals occ pid mac e pb .full).portals = portals) ∧
    (pb.pollAtEof ≠ some 0 →
      dictGet (streamDataRun portals occ pid mac e pb .full).portals pid =
        some { p with macs := dictDel p.macs mac ++ [(mac, x)] }) := by
  refine ⟨by simp [streamDataRun], by simp [streamDataRun], ?_, ?_⟩
  · intro h0
    simp [streamDataRun, h0]
  · intro hne
    have hbne : (pb.pollAtEof != some 0) = true := by
      simpa using hne
    simp only [streamDataRun, Bool.true_and, hbne, if_pos]
    rw [moveMac_eq hp hm hnd]
    simpa using dictGet_dictSet_self portals pid _

/-- Witness for the amended C6: exit code 3 rotates, exit code 0 does
not. -/
theorem streamData_rotation_witness :
    (streamDataRun [("p1", portalABC)] [] "p1" "B" infoB
        ⟨[7], some 3⟩ .full).rotated = true ∧
    dictGet (streamDataRun [("p1", portalABC)] [] "p1" "B" infoB
        ⟨[7], some 3⟩ .full).portals "p1" = some portalACB ∧
    (streamDataRun [("p1", portalABC)] [] "p1" "B" infoB
        ⟨[7], some 0⟩ .full).portals = [("p1", portalABC)] :=
  have h3 := streamData_rotation [("p1", portalABC)] [] "p1" "B" infoB
    ⟨[7], some 3⟩ portalABC "y" (by decide) (by decide) (by decide)
  have h0 := streamData_rotation [("p1", portalABC)] [] "p1" "B" infoB
    ⟨[7], some 0⟩ portalABC "y" (by decide) (by decide) (by decide)
  ⟨h3.1, by rw [h3.2.2.2 (by decide)]; decide, h0.2.2.1 rfl⟩

/-- Counterexample to C6 as stated: at EOF with the process still running
(`poll()` is `None`, so there is no exit code at all, let alone a
non-zero one), the code still rotates the MAC, because `None != 0` is
true in Python. -/
theorem streamData_rotation_counterexample :
    (streamDataRun [("p1", portalABC)] [] "p1" "B" infoB
        ⟨[], none⟩ .full).rotated = true ∧
    (⟨[], none⟩ : ProcBehavior).pollAtEof = none := by
  decide

/-! ## Lemmas about one candidate iteration (`tryMac`) -/

theorem tryMac_free_component (env : StbEnv) (s : Settings) (portal : Portal)
    (occupied : Occupied) (req : Request) (mac : String) :
    (tryMac env s portal occupied req mac).2.1 =
      macFreeCheck occupied req.portalId mac portal.streamsPerMac := by
  unfold tryMac
  dsimp only
  repeat' split
  all_goals rfl

theorem tryMac_not_free {env : StbEnv} {s : Settings} {portal : Portal}
    {occupied : Occupied} {req : Request} {mac : String}
    (hfree : macFreeCheck occupied req.portalId mac portal.streamsPerMac =
      false) :
    tryMac env s portal occupied req mac = (none, false, false, false) := by
  unfold tryMac
  simp [hfree, List.find?]

theorem tryMac_no_token {env : StbEnv} {s : Settings} {portal : Portal}
    {occupied : Occupied} {req : Request} {mac : String}
    (h : env.getToken mac = none) :
    tryMac env s portal occupied req mac =
      (none, macFreeCheck occupied req.portalId mac portal.streamsPerMac,
       macFreeCheck occupied req.portalId mac portal.streamsPerMac,
       false) := by
  unfold tryMac
  cases hfree : macFreeCheck occupied req.portalId mac portal.streamsPerMac
    <;> simp [h, List.find?]

theorem tryMac_some_free {env : StbEnv} {s : Settings} {portal : Portal}
    {occupied : Occupied} {req : Request} {mac : String} {o : Outcome}
    (ho : (tryMac env s portal occupied req mac).1 = some o) :
    (tryMac env s portal occupied req mac).2.1 = true := by
  cases hfree : macFreeCheck occupied req.portalId mac portal.streamsPerMac
  · rw [tryMac_not_free hfree] at ho
    cases ho
  · rw [tryMac_free_component]
    exact hfree

/-- With the web flag set, a returned outcome is either the propagated
`IndexError` or a streamed response built from the fixed browser
template; a redirect is impossible. -/
theorem tryMac_web {env : StbEnv} {s : Settings} {portal : Portal}
    {occupied : Occupied} {req : Request} {mac : String} {o : Outcome}
    (hweb : req.web = true)
    (ho : (tryMac env s portal occupied req mac).1 = some o) :
    o = .pyError ∨
    ∃ link, o = .streamResp (webCmd link portal.proxy) "video/mp2t" := by
  unfold tryMac at ho
  simp only [hweb, if_true] at ho
  split at ho
  · cases ho
  · split at ho
    · exact Or.inl (by injection ho with h; exact h.symm)
    · split at ho
      · cases ho
      · split at ho
        · cases ho
        · split at ho
          · injection ho with h
            exact Or.inr ⟨_, h.symm⟩
          · cases ho

/-- `s` with the `stream method` setting replaced. -/
def setMethod (s : Settings) (v : String) : Settings :=
  { s with streamMethod := v }

/-- `tryMac` never reads the `stream method` setting when the web flag is
set. -/
theorem tryMac_method_irrelevant (env : StbEnv) (s : Settings)
    (portal : Portal) (occupied : Occupied) (req : Request) (mac : String)
    (hweb : req.web = true) (v1 v2 : String) :
    tryMac env (setMethod s v1) portal occupied req mac =
      tryMac env (setMethod s v2) portal occupied req mac := by
  unfold tryMac setMethod
  simp only [hweb, if_true]

theorem tryMac_components_of_not_free {env : StbEnv} {s : Settings}
    {portal : Portal} {occupied : Occupied} {req : Request} {mac : String}
    {res : Option Outcome} {free tok probe : Bool}
    (htm : tryMac env s portal occupied req mac = (res, free, tok, probe))
    (hfree : free = false) : res = none ∧ tok = false ∧ probe = false := by
  have h := tryMac_free_component env s portal occupied req mac
  rw [htm] at h
  have hmf : macFreeCheck occupied req.portalId mac portal.streamsPerMac =
      false := by
    rw [← h]
    exact hfree
  have h2 := @tryMac_not_free env s portal occupied req mac hmf
  rw [htm] at h2
  injection h2 with e1 e2
  injection e2 with e3 e4
  injection e4 with e5 e6
  exact ⟨e1, e5, e6⟩

/-! ## C2: a slot-limited MAC is skipped without a network call, yet the
candidate loop still rotates it. -/

/-- C2 (amended).  In the candidate loop, a MAC failing the free-slot
check is skipped without any network call — no handshake and no stream
probe is issued for it — but it is nevertheless passed to `moveMac` and
rotated to the back of the portal's list, exactly like a candidate that
was tried and failed. -/
theorem stream_channel_skip_rotates (env : StbEnv) (s : Settings)
    (portals : Portals) (occ : Occupied) (req : Request) :
    ∀ a ∈ (stream_channel env s portals occ req).2.2,
      a.freeCheck = false →
        a.tokenCalled = false ∧ a.probeCalled = false ∧ a.rotated = true := by
  have hloop : ∀ (macs : List String) (portal : Portal) (ps : Portals)
      (freeMac : Bool) (acc : List MacAttempt),
      ∀ a ∈ (streamLoop env s portal occ req macs ps freeMac acc).2.2,
        a ∈ acc ∨ (a.freeCheck = false →
          a.tokenCalled = false ∧ a.probeCalled = false ∧
          a.rotated = true) := by
    intro macs
    induction macs with
    | nil =>
      intro portal ps freeMac acc a ha
      exact Or.inl ha
    | cons mac rest ih =>
      intro portal ps freeMac acc a ha
      unfold streamLoop at ha
      rcases htm : tryMac env s portal occ req mac with ⟨res, free, tok, probe⟩
      rw [htm] at ha
      dsimp only at ha
      cases res with
      | some o =>
        rcases List.mem_append.mp ha with h | h
        · exact Or.inl h
        · simp only [List.mem_singleton] at h
          subst h
          refine Or.inr (fun hfc => ?_)
          have h1 : (tryMac env s portal occ req mac).1 = some o := by
            rw [htm]
          have h2 := tryMac_some_free h1
          rw [htm] at h2
          simp only [MacAttempt.freeCheck] at hfc
          rw [hfc] at h2
          cases h2
      | none =>
        cases htry : (s.tryAllMacs != "true") with
        | true =>
          simp only [htry, if_true] at ha
          rcases List.mem_append.mp ha with h | h
          · exact Or.inl h
          · simp only [List.mem_singleton] at h
            subst h
            refine Or.inr (fun hfc => ?_)
            simp only [MacAttempt.freeCheck] at hfc
            obtain ⟨-, h5, h6⟩ := tryMac_components_of_not_free htm hfc
            exact ⟨h5, h6, rfl⟩
        | false =>
          simp only [htry, Bool.false_eq_true, if_false] at ha
          rcases ih portal _ _ _ a ha with h | h
          · rcases List.mem_append.mp h with h2 | h2
            · exact Or.inl h2
            · simp only [List.mem_singleton] at h2
              subst h2
              refine Or.inr (fun hfc => ?_)
              simp only [MacAttempt.freeCheck] at hfc
              obtain ⟨-, h5, h6⟩ := tryMac_components_of_not_free htm hfc
              exact ⟨h5, h6, rfl⟩
          · exact Or.inr h
  intro a ha hfc
  unfold stream_channel at ha
  split at ha
  · simp at ha
  · rcases hloop _ _ _ _ _ a ha with h | h
    · simp at h
    · exact h hfc

/-- Environment in which every portal call fails (handshake yields no
token; nothing else is reachable). -/
def envNone : StbEnv where
  getToken := fun _ => none
  getAllChannels := fun _ _ => none
  getLink := fun _ _ _ => none
  probeOk := fun _ => false

/-- Default-ish settings: probing on, try all MACs. -/
def sTrue : Settings where
  streamMethod := "ffmpeg"
  ffmpegCommand := defaultFfmpegCommand
  ffmpegTimeout := 5
  testStreams := "true"
  tryAllMacs := "true"

/-- Settings with `try all macs` disabled. -/
def sBreak : Settings where
  streamMethod := "ffmpeg"
  ffmpegCommand := defaultFfmpegCommand
  ffmpegTimeout := 5
  testStreams := "true"
  tryAllMacs := "false"

/-- A two-MAC portal with a per-MAC limit of one stream. -/
def portalAB : Portal where
  name := "P"
  url := "u"
  macs := [("A", "x"), ("B", "y")]
  streamsPerMac := 1
  proxy := ""

/-- `portalAB` after MAC `A` is rotated to the back. -/
def portalBA : Portal where
  name := "P"
  url := "u"
  macs := [("B", "y"), ("A", "x")]
  streamsPerMac := 1
  proxy := ""

/-- An occupancy entry pinning MAC `A` of portal `pz`. -/
def infoA : StreamInfo where
  mac := "A"
  channelId := "5"
  channelName := "Five"
  client := "1.2.3.4"
  portalName := "P"
  startTime := 0
  xcUser := none

/-- Request for channel 5 of portal `pz`, no web flag. -/
def reqZ : Request where
  portalId := "pz"
  channelId := "5"
  web := false

/-- Counterexample to C2 as stated: with `streamsPerMac = 1` and MAC `A`
occupied, the candidate loop skips `A` with no network call
(`tokenCalled = false`, `probeCalled = false`), yet still rotates it —
the persisted MAC order afterwards is `[B, A]`. -/
theorem stream_channel_skip_counterexample :
    (stream_channel envNone sBreak [("pz", portalAB)] [("pz", [infoA])]
        reqZ).2.2 = [⟨"A", false, false, false, true⟩] ∧
    (stream_channel envNone sBreak [("pz", portalAB)] [("pz", [infoA])]
        reqZ).2.1 = [("pz", portalBA)] := by
  decide

/-- Witness for the amended C2: the skipped MAC's attempt record. -/
theorem stream_channel_skip_rotates_witness :
    (⟨"A", false, false, false, true⟩ : MacAttempt) ∈
      (stream_channel envNone sBreak [("pz", portalAB)] [("pz", [infoA])]
        reqZ).2.2 ∧
    (false = false →
      (false : Bool) = false ∧ (false : Bool) = false ∧
      (true : Bool) = true) :=
  ⟨by decide,
   stream_channel_skip_rotates envNone sBreak [("pz", portalAB)]
     [("pz", [infoA])] reqZ ⟨"A", false, false, false, true⟩ (by decide)⟩

/-! ## C3: exhaustion when every handshake fails -/

/-- C3.  On an existing portal, if the handshake yields no token for any
MAC, the request ends in the `noStreams` outcome: no streaming subprocess
is spawned and no OccupancyEntry registered (`requestSpawns` is false —
only consuming a `streamResp` runs `streamData`), no probe was run, and
the HTTP response is 503 "No streams available"; the two exhaustion
reasons (the `freeMac` flag) produce identical responses. -/
theorem stream_channel_exhaustion (env : StbEnv) (s : Settings)
    (portals : Portals) (occ : Occupied) (req : Request) (p : Portal)
    (hp : dictGet portals req.portalId = some p)
    (hall : ∀ m, env.getToken m = none) :
    (∃ b, (stream_channel env s portals occ req).1 = .noStreams b) ∧
    requestSpawns (stream_channel env s portals occ req).1 = false ∧
    httpResponse (stream_channel env s portals occ req).1 =
      ("No streams available", 503) ∧
    (∀ a ∈ (stream_channel env s portals occ req).2.2,
      a.probeCalled = false) ∧
    httpResponse (.noStreams true) = httpResponse (.noStreams false) := by
  have hloop : ∀ (macs : List String) (portal : Portal) (ps : Portals)
      (freeMac : Bool) (acc : List MacAttempt),
      (∃ b, (streamLoop env s portal occ req macs ps freeMac acc).1 =
        .noStreams b) ∧
      (∀ a ∈ (streamLoop env s portal occ req macs ps freeMac acc).2.2,
        a ∈ acc ∨ a.probeCalled = false) := by
    intro macs
    induction macs with
    | nil =>
      intro portal ps freeMac acc
      exact ⟨⟨freeMac, rfl⟩, fun a ha => Or.inl ha⟩
    | cons mac rest ih =>
      intro portal ps freeMac acc
      unfold streamLoop
      rw [tryMac_no_token (hall mac)]
      dsimp only
      cases htry : (s.tryAllMacs != "true") with
      | true =>
        simp only [htry, if_true]
        refine ⟨⟨_, rfl⟩, fun a ha => ?_⟩
        rcases List.mem_append.mp ha with h | h
        · exact Or.inl h
        · simp only [List.mem_singleton] at h
          subst h
          exact Or.inr rfl
      | false =>
        simp only [htry, Bool.false_eq_true, if_false]
        refine ⟨(ih portal _ _ _).1, fun a ha => ?_⟩
        rcases (ih portal _ _ _).2 a ha with h | h
        · rcases List.mem_append.mp h with h2 | h2
          · exact Or.inl h2
          · simp only [List.mem_singleton] at h2
            subst h2
            exact Or.inr rfl
        · exact Or.inr h
  unfold stream_channel
  rw [hp]
  dsimp only
  obtain ⟨⟨b, hb⟩, hprobe⟩ := hloop (dictKeys p.macs) p portals false []
  refine ⟨⟨b, hb⟩, ?_, ?_, ?_, rfl⟩
  · rw [hb]
    rfl
  · rw [hb]
    rfl
  · intro a ha
    rcases hprobe a ha with h | h
    · simp at h
    · exact h

/-- Witness for C3 on a concrete portal whose two MACs both fail the
handshake. -/
theorem stream_channel_exhaustion_witness :
    httpResponse (stream_channel envNone sTrue [("pz", portalAB)] []
        reqZ).1 = ("No streams available", 503) ∧
    requestSpawns (stream_channel envNone sTrue [("pz", portalAB)] []
        reqZ).1 = false :=
  have h := stream_channel_exhaustion envNone sTrue [("pz", portalAB)] []
    reqZ portalAB (by decide) (fun m => rfl)
  ⟨h.2.2.1, h.2.1⟩

/-! ## C10: the web flag forces the browser template -/

/-- C10.  When the request carries the web flag, the outcome is never the
HTTP redirect (whatever `stream method` is set to — the whole request is
invariant in that setting), and any streamed response is built from the
fixed browser argument template with mimetype `video/mp2t`. -/
theorem stream_channel_web (env : StbEnv) (s : Settings) (portals : Portals)
    (occ : Occupied) (req : Request) (hweb : req.web = true) :
    (∀ l, (stream_channel env s portals occ req).1 ≠ .redirect l) ∧
    (∀ c mt, (stream_channel env s portals occ req).1 = .streamResp c mt →
      ∃ link proxy2, c = webCmd link proxy2 ∧ mt = "video/mp2t") ∧
    (∀ v1 v2, stream_channel env (setMethod s v1) portals occ req =
      stream_channel env (setMethod s v2) portals occ req) := by
  have hloop : ∀ (macs : List String) (portal : Portal) (ps : Portals)
      (freeMac : Bool) (acc : List MacAttempt),
      (∀ l, (streamLoop env s portal occ req macs ps freeMac acc).1 ≠
        .redirect l) ∧
      (∀ c mt, (streamLoop env s portal occ req macs ps freeMac acc).1 =
          .streamResp c mt →
        ∃ link, c = webCmd link portal.proxy ∧ mt = "video/mp2t") := by
    intro macs
    induction macs with
    | nil =>
      intro portal ps freeMac acc
      exact ⟨(fun l h => by cases h), (fun c mt h => by cases h)⟩
    | cons mac rest ih =>
      intro portal ps freeMac acc
      unfold streamLoop
      rcases htm : tryMac env s portal occ req mac with ⟨res, free, tok, probe⟩
      dsimp only
      cases res with
      | some o =>
        have h1 : (tryMac env s portal occ req mac).1 = some o := by
          rw [htm]
        rcases tryMac_web hweb h1 with h | ⟨link, h⟩
        · subst h
          exact ⟨(fun l h2 => by cases h2), (fun c mt h2 => by cases h2)⟩
        · subst h
          refine ⟨(fun l h2 => by cases h2), (fun c mt h2 => ?_)⟩
          injection h2 with hc hmt
          exact ⟨link, hc.symm, hmt.symm⟩
      | none =>
        cases htry : (s.tryAllMacs != "true") with
        | true =>
          simp only [htry, if_true]
          exact ⟨(fun l h => by cases h), (fun c mt h => by cases h)⟩
        | false =>
          simp only [htry, Bool.false_eq_true, if_false]
          exact ih portal _ _ _
  have hmethod : ∀ (v1 v2 : String) (macs : List String) (portal : Portal)
      (ps : Portals) (freeMac : Bool) (acc : List MacAttempt),
      streamLoop env (setMethod s v1) portal occ req macs ps freeMac acc =
      streamLoop env (setMethod s v2) portal occ req macs ps freeMac acc := by
    intro v1 v2 macs
    induction macs with
    | nil => intro portal ps freeMac acc; rfl
    | cons mac rest ih =>
      intro portal ps freeMac acc
      unfold streamLoop
      rw [tryMac_method_irrelevant env s portal occ req mac hweb v1 v2]
      rcases htm : tryMac env (setMethod s v2) portal occ req mac
        with ⟨res, free, tok, probe⟩
      dsimp only
      cases res with
      | some o => rfl
      | none =>
        have htry : (setMethod s v1).tryAllMacs =
            (setMethod s v2).tryAllMacs := rfl
        cases h2 : ((setMethod s v2).tryAllMacs != "true") with
        | true => simp only [setMethod] at h2 ⊢; simp only [h2, if_true]
        | false =>
          simp only [setMethod] at h2 ⊢
          simp only [h2, Bool.false_eq_true, if_false]
          exact ih portal _ _ _
  unfold stream_channel
  cases hp : dictGet portals req.portalId with
  | none =>
    refine ⟨(fun l h => by cases h), (fun c mt h => by cases h), (fun v1 v2 => rfl)⟩
  | some portal =>
    dsimp only
    obtain ⟨h1, h2⟩ := hloop (dictKeys portal.macs) portal portals false []
    exact ⟨h1, fun c mt h => (h2 c mt h).elim
        (fun link hl => ⟨link, portal.proxy, hl⟩),
      fun v1 v2 => hmethod v1 v2 _ portal portals false []⟩

/-- Environment in which MAC `A` authenticates and channel 5's command is
a direct URL that probes fine. -/
def envGood : StbEnv where
  getToken := fun _ => some "T"
  getAllChannels := fun _ _ => some [⟨"5", "Five", "ffmpeg http://src/5"⟩]
  getLink := fun _ _ _ => none
  probeOk := fun _ => true

/-- Request for channel 5 of portal `pz` with the web flag. -/
def reqW : Request where
  portalId := "pz"
  channelId := "5"
  web := true

/-- Witness for C10: on a concrete successful web request, the redirect
outcome is impossible and the result is invariant in `stream method`. -/
theorem stream_channel_web_witness :
    (stream_channel envGood sTrue [("pz", portalAB)] [] reqW).1 ≠
      .redirect "http://src/5" ∧
    stream_channel envGood (setMethod sTrue "redirect-me")
        [("pz", portalAB)] [] reqW =
      stream_channel envGood (setMethod sTrue "ffmpeg")
        [("pz", portalAB)] [] reqW :=
  have h := stream_channel_web envGood sTrue [("pz", portalAB)] [] reqW
    (by decide)
  ⟨h.1 "http://src/5", h.2.2 "redirect-me" "ffmpeg"⟩

/-! ## C5: generic/player-mode command construction

The default template is computed symbolically: the three `str.replace`
passes and the final `str.split()` are evaluated over concrete template
segments interleaved with the symbolic link, proxy and timeout tokens. -/

theorem pySplitAux_space (s : List Char) :
    pySplitAux (' ' :: s) [] = pySplitAux s [] := by
  simp [pySplitAux]

/-- A well-behaved substitution token: non-empty, no whitespace, and
free of `<` and `-` (so no placeholder pattern can match inside it or
start inside it). -/
def goodSym (x : List Char) : Bool :=
  !x.isEmpty && x.all (fun c => !c.isWhitespace && !(c == '<') && !(c == '-'))

theorem goodSym_props {x : List Char} (h : goodSym x = true) :
    x ≠ [] ∧ (∀ c ∈ x, c.isWhitespace = false) ∧ '<' ∉ x ∧ '-' ∉ x := by
  simp only [goodSym, Bool.and_eq_true, List.all_eq_true] at h
  obtain ⟨hne, hall⟩ := h
  refine ⟨by simpa using hne, ?_, ?_, ?_⟩
  · intro c hc
    have := hall c hc
    simp only [Bool.and_eq_true, Bool.not_eq_true'] at this
    exact this.1.1
  · intro hm
    have := hall _ hm
    simp at this
  · intro hm
    have := hall _ hm
    simp at this

/-- `"ffmpeg " ++ template` up to the `<url>` placeholder. -/
def c5X1 : List Char :=
  "ffmpeg -re -http_proxy <proxy> -timeout <timeout> -i ".toList

/-- The template after the `<url>` placeholder. -/
def c5Y1 : List Char :=
  " -map 0 -codec copy -f mpegts -flush_packets 0 -fflags +nobuffer -flags low_delay -strict experimental -analyzeduration 0 -probesize 32 -copyts -threads 12 pipe:".toList

def c5X2 : List Char := "ffmpeg -re -http_proxy <proxy> -timeout ".toList

def c5Z2 : List Char := " -i ".toList

def c5X3 : List Char := "ffmpeg -re -http_proxy ".toList

def c5W3 : List Char := " -timeout ".toList

def c5X4 : List Char := "ffmpeg -re ".toList

def c5Y1tail : List Char :=
  "-map 0 -codec copy -f mpegts -flush_packets 0 -fflags +nobuffer -flags low_delay -strict experimental -analyzeduration 0 -probesize 32 -copyts -threads 12 pipe:".toList

def c5TailWords : List (List Char) :=
  ["-map".toList, "0".toList, "-codec".toList, "copy".toList, "-f".toList,
   "mpegts".toList, "-flush_packets".toList, "0".toList, "-fflags".toList,
   "+nobuffer".toList, "-flags".toList, "low_delay".toList,
   "-strict".toList, "experimental".toList, "-analyzeduration".toList,
   "0".toList, "-probesize".toList, "32".toList, "-copyts".toList,
   "-threads".toList, "12".toList, "pipe:".toList]

def c5TailStrings : List String :=
  ["-map", "0", "-codec", "copy", "-f", "mpegts", "-flush_packets", "0",
   "-fflags", "+nobuffer", "-flags", "low_delay", "-strict",
   "experimental", "-analyzeduration", "0", "-probesize", "32", "-copyts",
   "-threads", "12", "pipe:"]

theorem c5_tail_split : pySplitAux c5Y1tail [] = c5TailWords := by decide

theorem c5_repl_url (L : List Char) :
    replaceL ("ffmpeg " ++ defaultFfmpegCommand).toList "<url>".toList L =
      c5X1 ++ (L ++ c5Y1) := by
  show replAux '<' "url>".toList L
      (c5X1 ++ (('<' :: "url>".toList) ++ c5Y1)) = c5X1 ++ (L ++ c5Y1)
  rw [replAux_skip (x := c5X1) (by decide) _, replAux_match,
    replAux_of_allClash (by decide)]

theorem c5_repl_timeout (L T : List Char) (hL : '<' ∉ L) :
    replaceL (c5X1 ++ (L ++ c5Y1)) "<timeout>".toList T =
      c5X2 ++ (T ++ (c5Z2 ++ (L ++ c5Y1))) := by
  show replAux '<' "timeout>".toList T
      (c5X2 ++ (('<' :: "timeout>".toList) ++ (c5Z2 ++ (L ++ c5Y1)))) =
    c5X2 ++ (T ++ (c5Z2 ++ (L ++ c5Y1)))
  rw [replAux_skip (x := c5X2) (by decide) _, replAux_match,
    replAux_skip (x := c5Z2) (by decide) _,
    replAux_skip (x := L) (allClash_of_head_notMem hL) _,
    replAux_of_allClash (by decide)]

theorem c5_repl_proxy (L T P : List Char) (hL : '<' ∉ L) (hT : '<' ∉ T) :
    replaceL (c5X2 ++ (T ++ (c5Z2 ++ (L ++ c5Y1)))) "<proxy>".toList P =
      c5X3 ++ (P ++ (c5W3 ++ (T ++ (c5Z2 ++ (L ++ c5Y1))))) := by
  show replAux '<' "proxy>".toList P
      (c5X3 ++ (('<' :: "proxy>".toList) ++
        (c5W3 ++ (T ++ (c5Z2 ++ (L ++ c5Y1)))))) =
    c5X3 ++ (P ++ (c5W3 ++ (T ++ (c5Z2 ++ (L ++ c5Y1)))))
  rw [replAux_skip (x := c5X3) (by decide) _, replAux_match,
    replAux_skip (x := c5W3) (by decide) _,
    replAux_skip (x := T) (allClash_of_head_notMem hT) _,
    replAux_skip (x := c5Z2) (by decide) _,
    replAux_skip (x := L) (allClash_of_head_notMem hL) _,
    replAux_of_allClash (by decide)]

theorem c5_repl_noproxy (L T : List Char) (hL : '-' ∉ L) (hT : '-' ∉ T) :
    replaceL (c5X2 ++ (T ++ (c5Z2 ++ (L ++ c5Y1))))
        "-http_proxy <proxy>".toList [] =
      c5X4 ++ (c5W3 ++ (T ++ (c5Z2 ++ (L ++ c5Y1)))) := by
  show replAux '-' "http_proxy <proxy>".toList []
      (c5X4 ++ (('-' :: "http_proxy <proxy>".toList) ++
        (c5W3 ++ (T ++ (c5Z2 ++ (L ++ c5Y1)))))) =
    c5X4 ++ (c5W3 ++ (T ++ (c5Z2 ++ (L ++ c5Y1))))
  rw [replAux_skip (x := c5X4) (by decide) _, replAux_match,
    replAux_skip (x := c5W3) (by decide) _,
    replAux_skip (x := T) (allClash_of_head_notMem hT) _,
    replAux_skip (x := c5Z2) (by decide) _,
    replAux_skip (x := L) (allClash_of_head_notMem hL) _,
    replAux_of_allClash (by decide)]
  rfl

theorem c5_split_proxy (P T L : List Char)
    (hP : P ≠ []) (hPw : ∀ c ∈ P, c.isWhitespace = false)
    (hT : T ≠ []) (hTw : ∀ c ∈ T, c.isWhitespace = false)
    (hL : L ≠ []) (hLw : ∀ c ∈ L, c.isWhitespace = false) :
    pySplitAux (c5X3 ++ (P ++ (c5W3 ++ (T ++ (c5Z2 ++ (L ++ c5Y1)))))) [] =
      ["ffmpeg".toList, "-re".toList, "-http_proxy".toList, P,
       "-timeout".toList, T, "-i".toList, L] ++ c5TailWords := by
  show pySplitAux ("ffmpeg".toList ++ ' ' :: ("-re".toList ++ ' ' ::
      ("-http_proxy".toList ++ ' ' :: (P ++ ' ' :: ("-timeout".toList ++
      ' ' :: (T ++ ' ' :: ("-i".toList ++ ' ' ::
      (L ++ ' ' :: c5Y1tail)))))))) [] = _
  rw [pySplitAux_word_space (w := "ffmpeg".toList) (by decide) (by decide),
    pySplitAux_word_space (w := "-re".toList) (by decide) (by decide),
    pySplitAux_word_space (w := "-http_proxy".toList) (by decide)
      (by decide),
    pySplitAux_word_space (w := P) hP hPw,
    pySplitAux_word_space (w := "-timeout".toList) (by decide) (by decide),
    pySplitAux_word_space (w := T) hT hTw,
    pySplitAux_word_space (w := "-i".toList) (by decide) (by decide),
    pySplitAux_word_space (w := L) hL hLw,
    c5_tail_split]
  rfl

theorem c5_split_noproxy (T L : List Char)
    (hT : T ≠ []) (hTw : ∀ c ∈ T, c.isWhitespace = false)
    (hL : L ≠ []) (hLw : ∀ c ∈ L, c.isWhitespace = false) :
    pySplitAux (c5X4 ++ (c5W3 ++ (T ++ (c5Z2 ++ (L ++ c5Y1))))) [] =
      ["ffmpeg".toList, "-re".toList, "-timeout".toList, T,
       "-i".toList, L] ++ c5TailWords := by
  show pySplitAux ("ffmpeg".toList ++ ' ' :: ("-re".toList ++ ' ' ::
      (' ' :: ("-timeout".toList ++ ' ' :: (T ++ ' ' ::
      ("-i".toList ++ ' ' :: (L ++ ' ' :: c5Y1tail))))))) [] = _
  rw [pySplitAux_word_space (w := "ffmpeg".toList) (by decide) (by decide),
    pySplitAux_word_space (w := "-re".toList) (by decide) (by decide),
    pySplitAux_space,
    pySplitAux_word_space (w := "-timeout".toList) (by decide) (by decide),
    pySplitAux_word_space (w := T) hT hTw,
    pySplitAux_word_space (w := "-i".toList) (by decide) (by decide),
    pySplitAux_word_space (w := L) hL hLw,
    c5_tail_split]
  rfl

/-- C5.  For the shipped `ffmpeg command` template, the generic-mode
argument vector is the template with `<url>` replaced by the resolved
link and `<timeout>` replaced by the configured timeout (seconds)
multiplied by 1,000,000; with a proxy configured `<proxy>` is replaced by
its value, and with no proxy the `-http_proxy <proxy>` flag-plus-
placeholder pair disappears entirely (no empty argument is left
behind). -/
theorem playerCmd_default_spec (link proxy : String) (t : Nat)
    (hlink : goodSym link.toList = true)
    (hproxy : goodSym proxy.toList = true)
    (ht : goodSym (Nat.repr (t * 1000000)).toList = true) :
    playerCmd defaultFfmpegCommand link proxy t =
      ["ffmpeg", "-re", "-http_proxy", proxy, "-timeout",
       Nat.repr (t * 1000000), "-i", link] ++ c5TailStrings ∧
    playerCmd defaultFfmpegCommand link "" t =
      ["ffmpeg", "-re", "-timeout", Nat.repr (t * 1000000), "-i", link]
        ++ c5TailStrings := by
  obtain ⟨hLne, hLw, hLlt, hLdash⟩ := goodSym_props hlink
  obtain ⟨hPne, hPw, hPlt, hPdash⟩ := goodSym_props hproxy
  obtain ⟨hTne, hTw, hTlt, hTdash⟩ := goodSym_props ht
  have hpne : proxy ≠ "" := by
    intro h
    rw [h] at hproxy
    exact absurd hproxy (by decide)
  constructor
  · have e0 : playerCmd defaultFfmpegCommand link proxy t =
        pySplit ⟨replaceL (replaceL (replaceL
          ("ffmpeg " ++ defaultFfmpegCommand).toList "<url>".toList
          link.toList) "<timeout>".toList
          (Nat.repr (t * 1000000)).toList) "<proxy>".toList
          proxy.toList⟩ := by
      unfold playerCmd
      dsimp only
      rw [if_pos hpne]
      rfl
    rw [e0, c5_repl_url link.toList,
      c5_repl_timeout link.toList _ hLlt,
      c5_repl_proxy link.toList _ proxy.toList hLlt hTlt]
    show (pySplitAux (c5X3 ++ (proxy.toList ++ (c5W3 ++
        ((Nat.repr (t * 1000000)).toList ++ (c5Z2 ++
        (link.toList ++ c5Y1)))))) []).map (fun l => (⟨l⟩ : String)) = _
    rw [c5_split_proxy proxy.toList _ link.toList hPne hPw hTne hTw
      hLne hLw]
    rfl
  · have e0 : playerCmd defaultFfmpegCommand link "" t =
        pySplit ⟨replaceL (replaceL (replaceL
          ("ffmpeg " ++ defaultFfmpegCommand).toList "<url>".toList
          link.toList) "<timeout>".toList
          (Nat.repr (t * 1000000)).toList) "-http_proxy <proxy>".toList
          "".toList⟩ := by
      unfold playerCmd
      dsimp only
      rw [if_neg (by simp)]
      rfl
    rw [e0, c5_repl_url link.toList,
      c5_repl_timeout link.toList _ hLlt]
    show (pySplitAux (replaceL (c5X2 ++
        ((Nat.repr (t * 1000000)).toList ++ (c5Z2 ++
        (link.toList ++ c5Y1)))) "-http_proxy <proxy>".toList []) []).map
        (fun l => (⟨l⟩ : String)) = _
    rw [c5_repl_noproxy link.toList _ hLdash hTdash]
    rw [c5_split_noproxy _ link.toList hTne hTw hLne hLw]
    rfl

/-- Witness for C5 at a concrete link, proxy and timeout. -/
theorem playerCmd_default_spec_witness :
    playerCmd defaultFfmpegCommand "http://src/5" "http://p:8080" 5 =
      ["ffmpeg", "-re", "-http_proxy", "http://p:8080", "-timeout",
       "5000000", "-i", "http://src/5"] ++ c5TailStrings ∧
    playerCmd defaultFfmpegCommand "http://src/5" "" 5 =
      ["ffmpeg", "-re", "-timeout", "5000000", "-i", "http://src/5"]
        ++ c5TailStrings :=
  playerCmd_default_spec "http://src/5" "http://p:8080" 5
    (by decide) (by decide) (by decide)

end MacReplay
